import Mathlib

/-!
Shallow embedding of `releases/41_blackbird/util/add_uf2_erase_block.py`.

Bytes are modelled as `List Nat` (each entry a byte value).  `struct.pack_into
"<I"` is modelled by `writeAt` together with `le32`, which lays out the four
little-endian bytes of a 32-bit value; values are reduced mod 2^32 by the
byte extraction itself.  File I/O is stripped: `modify_uf2_bytes` is the pure
byte transformation performed by `modify_uf2` between reading the input file
and writing the output file.
-/

namespace AddUf2EraseBlock

def UF2_MAGIC_START0 : Nat := 0x0A324655
def UF2_MAGIC_START1 : Nat := 0x9E5D5157
def UF2_MAGIC_END : Nat := 0x0AB16F30

/-- User script storage area (last 16KB of 2MB flash). -/
def USER_SCRIPT_OFFSET : Nat := 2 * 1024 * 1024 - 16 * 1024

def USER_SCRIPT_SIZE : Nat := 16 * 1024

def BLOCK_SIZE : Nat := 256

/-- The four little-endian bytes of `v`, as laid out by `struct.pack("<I", v)`.
(For `v < 2^32` this is exact; larger values are truncated to 32 bits by the
byte extraction, where CPython would raise `struct.error`.) -/
def le32 (v : Nat) : List Nat :=
  [v % 256, v / 256 % 256, v / 65536 % 256, v / 16777216 % 256]

/-- Model of `struct.pack_into` / slice assignment: overwrite `bs.length`
bytes of `l` starting at offset `off`. -/
def writeAt (l : List Nat) (off : Nat) (bs : List Nat) : List Nat :=
  l.take off ++ bs ++ l.drop (off + bs.length)

/-- Model of `create_erase_block(target_addr, block_num, total_blocks)`: a UF2 block
filled with 0xFF (erased flash).  The Python loop writing `block[32+i] = 0xFF`
for `i in range(256)` is the single 256-byte write at offset 32. -/
def create_erase_block (target_addr block_num total_blocks : Nat) : List Nat :=
  let block := List.replicate 512 0
  let block := writeAt block 0 (le32 UF2_MAGIC_START0)
  let block := writeAt block 4 (le32 UF2_MAGIC_START1)
  let block := writeAt block 8 (le32 0x2000)
  let block := writeAt block 12 (le32 target_addr)
  let block := writeAt block 16 (le32 BLOCK_SIZE)
  let block := writeAt block 20 (le32 block_num)
  let block := writeAt block 24 (le32 total_blocks)
  let block := writeAt block 28 (le32 0xe48bff56)
  let block := writeAt block 32 (List.replicate 256 0xFF)
  writeAt block 508 (le32 UF2_MAGIC_END)

/-- The erase-block generation loop of `modify_uf2` (lines 63-68), with the
region base address and size as parameters; `modify_uf2` instantiates it at
the fixed user-script region.  Produces one block per 256-byte chunk. -/
def erase_region_blocks (base_addr size start_index total : Nat) :
    List (List Nat) :=
  (List.range (size / BLOCK_SIZE)).map fun i =>
    create_erase_block (base_addr + i * BLOCK_SIZE) (start_index + i) total

/-- Lines 57-61 of `modify_uf2`: the `i`-th original 512-byte slice
`original_data[i*512:(i+1)*512]` with the total block count packed into
offset 24. -/
def updated_block (original_data : List Nat) (total_blocks i : Nat) :
    List Nat :=
  writeAt ((original_data.drop (i * 512)).take 512) 24 (le32 total_blocks)

/-- The `blocks` list built by `modify_uf2` just before it is written out:
the updated original blocks followed by the erase blocks for the user
script area. -/
def uf2_blocks (original_data : List Nat) : List (List Nat) :=
  (List.range (original_data.length / 512)).map
    (updated_block original_data
      (original_data.length / 512 + USER_SCRIPT_SIZE / BLOCK_SIZE)) ++
  erase_region_blocks (0x10000000 + USER_SCRIPT_OFFSET) USER_SCRIPT_SIZE
    (original_data.length / 512)
    (original_data.length / 512 + USER_SCRIPT_SIZE / BLOCK_SIZE)

/-- The pure core of `modify_uf2`: the output bytes as a function of the input
file bytes (`original_blocks = len(original_data) // 512`,
`erase_blocks_needed = USER_SCRIPT_SIZE // BLOCK_SIZE`,
`total_blocks = original_blocks + erase_blocks_needed`). -/
def modify_uf2_bytes (original_data : List Nat) : List Nat :=
  (uf2_blocks original_data).flatten

/-- Byte `n` of a byte list (0 past the end, matching reads that never go past
the end in the modelled code). -/
def byteAt (l : List Nat) (n : Nat) : Nat := l.getD n 0

/-- Little-endian 32-bit read at offset `off`, the inverse view of `le32`. -/
def readLE32 (l : List Nat) (off : Nat) : Nat :=
  byteAt l off + 256 * byteAt l (off + 1) + 65536 * byteAt l (off + 2) +
    16777216 * byteAt l (off + 3)

/-- The 512-byte frame at block position `i` of a serialized image. -/
def blockAt (l : List Nat) (i : Nat) : List Nat := (l.drop (i * 512)).take 512

theorem length_le32 (v : Nat) : (le32 v).length = 4 := rfl

theorem length_writeAt {l bs : List Nat} {off : Nat}
    (h : off + bs.length ≤ l.length) : (writeAt l off bs).length = l.length := by
  simp only [writeAt, List.length_append, List.length_take, List.length_drop]
  omega

theorem byteAt_take {l : List Nat} {m j : Nat} (h : j < m) :
    byteAt (l.take m) j = byteAt l j := by
  induction l generalizing m j with
  | nil => simp [byteAt]
  | cons a l ih =>
    cases m with
    | zero => omega
    | succ m =>
      cases j with
      | zero => simp [byteAt]
      | succ j =>
        show byteAt (l.take m) j = byteAt l j
        exact ih (by omega)

theorem byteAt_drop (l : List Nat) (m j : Nat) :
    byteAt (l.drop m) j = byteAt l (m + j) := by
  induction m generalizing l with
  | zero => simp
  | succ m ih =>
    cases l with
    | nil => simp [byteAt]
    | cons a l =>
      show byteAt (l.drop m) j = byteAt (a :: l) (m + 1 + j)
      have e : m + 1 + j = m + j + 1 := by omega
      rw [e]
      exact ih l

theorem byteAt_writeAt_lt {l bs : List Nat} {off n : Nat}
    (h1 : n < off) (h2 : off ≤ l.length) :
    byteAt (writeAt l off bs) n = byteAt l n := by
  unfold writeAt byteAt
  rw [List.append_assoc,
    List.getD_append _ _ _ _ (by simp [List.length_take]; omega)]
  exact byteAt_take h1

theorem byteAt_writeAt_mem {l bs : List Nat} {off n : Nat}
    (h1 : off ≤ n) (h2 : n < off + bs.length) (h3 : off + bs.length ≤ l.length) :
    byteAt (writeAt l off bs) n = byteAt bs (n - off) := by
  unfold writeAt byteAt
  have htake : (l.take off).length = off := by simp [List.length_take]; omega
  rw [List.append_assoc, List.getD_append_right _ _ _ _ (by omega), htake,
    List.getD_append _ _ _ _ (by omega)]

theorem byteAt_writeAt_ge {l bs : List Nat} {off n : Nat}
    (h1 : off + bs.length ≤ n) (h3 : off + bs.length ≤ l.length) :
    byteAt (writeAt l off bs) n = byteAt l n := by
  unfold writeAt byteAt
  have htake : (l.take off).length = off := by simp [List.length_take]; omega
  rw [List.append_assoc, List.getD_append_right _ _ _ _ (by omega), htake,
    List.getD_append_right _ _ _ _ (by omega)]
  show byteAt (l.drop (off + bs.length)) (n - off - bs.length) = byteAt l n
  rw [byteAt_drop]
  congr 1
  omega

theorem byteAt_replicate {m j : Nat} (d : Nat) (h : j < m) :
    byteAt (List.replicate m d) j = d := by
  induction m generalizing j with
  | zero => omega
  | succ m ih =>
    cases j with
    | zero => rfl
    | succ j =>
      show byteAt (List.replicate m d) j = d
      exact ih (by omega)

theorem byteAt_replicate_zero (m j : Nat) :
    byteAt (List.replicate m 0) j = 0 := by
  induction m generalizing j with
  | zero => rfl
  | succ m ih =>
    cases j with
    | zero => rfl
    | succ j => exact ih j

theorem byteAt_ge_length {l : List Nat} {n : Nat} (h : l.length ≤ n) :
    byteAt l n = 0 :=
  List.getD_eq_default _ _ h

theorem length_writeAt_le32 {l : List Nat} {off v : Nat}
    (h : off + 4 ≤ l.length) : (writeAt l off (le32 v)).length = l.length :=
  length_writeAt (by rw [length_le32]; exact h)

theorem byteAt_writeAt_le32_mem {l : List Nat} {off n v : Nat}
    (g1 : off ≤ n) (g2 : n < off + 4) (g3 : off + 4 ≤ l.length) :
    byteAt (writeAt l off (le32 v)) n = byteAt (le32 v) (n - off) :=
  byteAt_writeAt_mem g1 (by rw [length_le32]; exact g2)
    (by rw [length_le32]; exact g3)

theorem byteAt_writeAt_le32_ge {l : List Nat} {off n v : Nat}
    (g1 : off + 4 ≤ n) (g3 : off + 4 ≤ l.length) :
    byteAt (writeAt l off (le32 v)) n = byteAt l n :=
  byteAt_writeAt_ge (by rw [length_le32]; exact g1)
    (by rw [length_le32]; exact g3)

set_option maxHeartbeats 2000000 in
/-- Byte-level characterization of `create_erase_block`: the frame is the
eight little-endian header words, 256 bytes of `0xFF`, 220 zero padding
bytes, and the end magic. -/
theorem byteAt_create_erase_block (a b c j : Nat) :
    byteAt (create_erase_block a b c) j =
      if j < 4 then byteAt (le32 UF2_MAGIC_START0) j
      else if j < 8 then byteAt (le32 UF2_MAGIC_START1) (j - 4)
      else if j < 12 then byteAt (le32 0x2000) (j - 8)
      else if j < 16 then byteAt (le32 a) (j - 12)
      else if j < 20 then byteAt (le32 BLOCK_SIZE) (j - 16)
      else if j < 24 then byteAt (le32 b) (j - 20)
      else if j < 28 then byteAt (le32 c) (j - 24)
      else if j < 32 then byteAt (le32 0xe48bff56) (j - 28)
      else if j < 288 then 255
      else if j < 508 then 0
      else if j < 512 then byteAt (le32 UF2_MAGIC_END) (j - 508)
      else 0 := by
  show byteAt
      (writeAt
        (writeAt
          (writeAt
            (writeAt
              (writeAt
                (writeAt
                  (writeAt
                    (writeAt
                      (writeAt
                        (writeAt (List.replicate 512 0) 0
                          (le32 UF2_MAGIC_START0))
                        4 (le32 UF2_MAGIC_START1))
                      8 (le32 0x2000))
                    12 (le32 a))
                  16 (le32 BLOCK_SIZE))
                20 (le32 b))
              24 (le32 c))
            28 (le32 0xe48bff56))
          32 (List.replicate 256 255))
        508 (le32 UF2_MAGIC_END)) j = _
  set b0 : List Nat := List.replicate 512 0 with hb0
  set b1 : List Nat := writeAt b0 0 (le32 UF2_MAGIC_START0) with hb1
  set b2 : List Nat := writeAt b1 4 (le32 UF2_MAGIC_START1) with hb2
  set b3 : List Nat := writeAt b2 8 (le32 0x2000) with hb3
  set b4 : List Nat := writeAt b3 12 (le32 a) with hb4
  set b5 : List Nat := writeAt b4 16 (le32 BLOCK_SIZE) with hb5
  set b6 : List Nat := writeAt b5 20 (le32 b) with hb6
  set b7 : List Nat := writeAt b6 24 (le32 c) with hb7
  set b8 : List Nat := writeAt b7 28 (le32 0xe48bff56) with hb8
  set b9 : List Nat := writeAt b8 32 (List.replicate 256 255) with hb9
  have l0 : b0.length = 512 := by rw [hb0, List.length_replicate]
  have l1 : b1.length = 512 := by rw [hb1, length_writeAt_le32 (by omega)]; omega
  have l2 : b2.length = 512 := by rw [hb2, length_writeAt_le32 (by omega)]; omega
  have l3 : b3.length = 512 := by rw [hb3, length_writeAt_le32 (by omega)]; omega
  have l4 : b4.length = 512 := by rw [hb4, length_writeAt_le32 (by omega)]; omega
  have l5 : b5.length = 512 := by rw [hb5, length_writeAt_le32 (by omega)]; omega
  have l6 : b6.length = 512 := by rw [hb6, length_writeAt_le32 (by omega)]; omega
  have l7 : b7.length = 512 := by rw [hb7, length_writeAt_le32 (by omega)]; omega
  have l8 : b8.length = 512 := by rw [hb8, length_writeAt_le32 (by omega)]; omega
  have l9 : b9.length = 512 := by
    rw [hb9, length_writeAt (by rw [List.length_replicate]; omega)]; omega
  split_ifs with c1 c2 c3 c4 c5 c6 c7 c8 c9 c10 c11
  · rw [byteAt_writeAt_lt (show j < 508 by omega) (by omega),
      hb9, byteAt_writeAt_lt (show j < 32 by omega) (by omega),
      hb8, byteAt_writeAt_lt (show j < 28 by omega) (by omega),
      hb7, byteAt_writeAt_lt (show j < 24 by omega) (by omega),
      hb6, byteAt_writeAt_lt (show j < 20 by omega) (by omega),
      hb5, byteAt_writeAt_lt (show j < 16 by omega) (by omega),
      hb4, byteAt_writeAt_lt (show j < 12 by omega) (by omega),
      hb3, byteAt_writeAt_lt (show j < 8 by omega) (by omega),
      hb2, byteAt_writeAt_lt (show j < 4 by omega) (by omega),
      hb1, byteAt_writeAt_le32_mem (show 0 ≤ j by omega) (show j < 0 + 4 by omega)
        (by omega), Nat.sub_zero]
  · rw [byteAt_writeAt_lt (show j < 508 by omega) (by omega),
      hb9, byteAt_writeAt_lt (show j < 32 by omega) (by omega),
      hb8, byteAt_writeAt_lt (show j < 28 by omega) (by omega),
      hb7, byteAt_writeAt_lt (show j < 24 by omega) (by omega),
      hb6, byteAt_writeAt_lt (show j < 20 by omega) (by omega),
      hb5, byteAt_writeAt_lt (show j < 16 by omega) (by omega),
      hb4, byteAt_writeAt_lt (show j < 12 by omega) (by omega),
      hb3, byteAt_writeAt_lt (show j < 8 by omega) (by omega),
      hb2, byteAt_writeAt_le32_mem (show 4 ≤ j by omega) (show j < 4 + 4 by omega)
        (by omega)]
  · rw [byteAt_writeAt_lt (show j < 508 by omega) (by omega),
      hb9, byteAt_writeAt_lt (show j < 32 by omega) (by omega),
      hb8, byteAt_writeAt_lt (show j < 28 by omega) (by omega),
      hb7, byteAt_writeAt_lt (show j < 24 by omega) (by omega),
      hb6, byteAt_writeAt_lt (show j < 20 by omega) (by omega),
      hb5, byteAt_writeAt_lt (show j < 16 by omega) (by omega),
      hb4, byteAt_writeAt_lt (show j < 12 by omega) (by omega),
      hb3, byteAt_writeAt_le32_mem (show 8 ≤ j by omega) (show j < 8 + 4 by omega)
        (by omega)]
  · rw [byteAt_writeAt_lt (show j < 508 by omega) (by omega),
      hb9, byteAt_writeAt_lt (show j < 32 by omega) (by omega),
      hb8, byteAt_writeAt_lt (show j < 28 by omega) (by omega),
      hb7, byteAt_writeAt_lt (show j < 24 by omega) (by omega),
      hb6, byteAt_writeAt_lt (show j < 20 by omega) (by omega),
      hb5, byteAt_writeAt_lt (show j < 16 by omega) (by omega),
      hb4, byteAt_writeAt_le32_mem (show 12 ≤ j by omega)
        (show j < 12 + 4 by omega) (by omega)]
  · rw [byteAt_writeAt_lt (show j < 508 by omega) (by omega),
      hb9, byteAt_writeAt_lt (show j < 32 by omega) (by omega),
      hb8, byteAt_writeAt_lt (show j < 28 by omega) (by omega),
      hb7, byteAt_writeAt_lt (show j < 24 by omega) (by omega),
      hb6, byteAt_writeAt_lt (show j < 20 by omega) (by omega),
      hb5, byteAt_writeAt_le32_mem (show 16 ≤ j by omega)
        (show j < 16 + 4 by omega) (by omega)]
  · rw [byteAt_writeAt_lt (show j < 508 by omega) (by omega),
      hb9, byteAt_writeAt_lt (show j < 32 by omega) (by omega),
      hb8, byteAt_writeAt_lt (show j < 28 by omega) (by omega),
      hb7, byteAt_writeAt_lt (show j < 24 by omega) (by omega),
      hb6, byteAt_writeAt_le32_mem (show 20 ≤ j by omega)
        (show j < 20 + 4 by omega) (by omega)]
  · rw [byteAt_writeAt_lt (show j < 508 by omega) (by omega),
      hb9, byteAt_writeAt_lt (show j < 32 by omega) (by omega),
      hb8, byteAt_writeAt_lt (show j < 28 by omega) (by omega),
      hb7, byteAt_writeAt_le32_mem (show 24 ≤ j by omega)
        (show j < 24 + 4 by omega) (by omega)]
  · rw [byteAt_writeAt_lt (show j < 508 by omega) (by omega),
      hb9, byteAt_writeAt_lt (show j < 32 by omega) (by omega),
      hb8, byteAt_writeAt_le32_mem (show 28 ≤ j by omega)
        (show j < 28 + 4 by omega) (by omega)]
  · rw [byteAt_writeAt_lt (show j < 508 by omega) (by omega),
      hb9, byteAt_writeAt_mem (show 32 ≤ j by omega)
        (show j < 32 + (List.replicate 256 255).length by
          rw [List.length_replicate]; omega)
        (by rw [List.length_replicate]; omega)]
    exact byteAt_replicate 255 (by omega)
  · rw [byteAt_writeAt_lt (show j < 508 by omega) (by omega),
      hb9, byteAt_writeAt_ge
        (show 32 + (List.replicate 256 255).length ≤ j by
          rw [List.length_replicate]; omega)
        (by rw [List.length_replicate]; omega),
      hb8, byteAt_writeAt_le32_ge (show 28 + 4 ≤ j by omega) (by omega),
      hb7, byteAt_writeAt_le32_ge (show 24 + 4 ≤ j by omega) (by omega),
      hb6, byteAt_writeAt_le32_ge (show 20 + 4 ≤ j by omega) (by omega),
      hb5, byteAt_writeAt_le32_ge (show 16 + 4 ≤ j by omega) (by omega),
      hb4, byteAt_writeAt_le32_ge (show 12 + 4 ≤ j by omega) (by omega),
      hb3, byteAt_writeAt_le32_ge (show 8 + 4 ≤ j by omega) (by omega),
      hb2, byteAt_writeAt_le32_ge (show 4 + 4 ≤ j by omega) (by omega),
      hb1, byteAt_writeAt_le32_ge (show 0 + 4 ≤ j by omega) (by omega),
      hb0, byteAt_replicate_zero]
  · rw [byteAt_writeAt_le32_mem (show 508 ≤ j by omega)
      (show j < 508 + 4 by omega) (by omega)]
  · exact byteAt_ge_length (by
      rw [length_writeAt_le32 (by omega)]; omega)

theorem byteAt_le32_zero (v : Nat) : byteAt (le32 v) 0 = v % 256 := rfl

theorem byteAt_le32_one (v : Nat) : byteAt (le32 v) 1 = v / 256 % 256 := rfl

theorem byteAt_le32_two (v : Nat) : byteAt (le32 v) 2 = v / 65536 % 256 := rfl

theorem byteAt_le32_three (v : Nat) :
    byteAt (le32 v) 3 = v / 16777216 % 256 := rfl

theorem length_create_erase_block (a b c : Nat) :
    (create_erase_block a b c).length = 512 := by
  show (writeAt
      (writeAt
        (writeAt
          (writeAt
            (writeAt
              (writeAt
                (writeAt
                  (writeAt
                    (writeAt
                      (writeAt (List.replicate 512 0) 0
                        (le32 UF2_MAGIC_START0))
                      4 (le32 UF2_MAGIC_START1))
                    8 (le32 0x2000))
                  12 (le32 a))
                16 (le32 BLOCK_SIZE))
              20 (le32 b))
            24 (le32 c))
          28 (le32 0xe48bff56))
        32 (List.replicate 256 255))
      508 (le32 UF2_MAGIC_END)).length = 512
  set b0 : List Nat := List.replicate 512 0 with hb0
  set b1 : List Nat := writeAt b0 0 (le32 UF2_MAGIC_START0) with hb1
  set b2 : List Nat := writeAt b1 4 (le32 UF2_MAGIC_START1) with hb2
  set b3 : List Nat := writeAt b2 8 (le32 0x2000) with hb3
  set b4 : List Nat := writeAt b3 12 (le32 a) with hb4
  set b5 : List Nat := writeAt b4 16 (le32 BLOCK_SIZE) with hb5
  set b6 : List Nat := writeAt b5 20 (le32 b) with hb6
  set b7 : List Nat := writeAt b6 24 (le32 c) with hb7
  set b8 : List Nat := writeAt b7 28 (le32 0xe48bff56) with hb8
  set b9 : List Nat := writeAt b8 32 (List.replicate 256 255) with hb9
  have l0 : b0.length = 512 := by rw [hb0, List.length_replicate]
  have l1 : b1.length = 512 := by rw [hb1, length_writeAt_le32 (by omega)]; omega
  have l2 : b2.length = 512 := by rw [hb2, length_writeAt_le32 (by omega)]; omega
  have l3 : b3.length = 512 := by rw [hb3, length_writeAt_le32 (by omega)]; omega
  have l4 : b4.length = 512 := by rw [hb4, length_writeAt_le32 (by omega)]; omega
  have l5 : b5.length = 512 := by rw [hb5, length_writeAt_le32 (by omega)]; omega
  have l6 : b6.length = 512 := by rw [hb6, length_writeAt_le32 (by omega)]; omega
  have l7 : b7.length = 512 := by rw [hb7, length_writeAt_le32 (by omega)]; omega
  have l8 : b8.length = 512 := by rw [hb8, length_writeAt_le32 (by omega)]; omega
  have l9 : b9.length = 512 := by
    rw [hb9, length_writeAt (by rw [List.length_replicate]; omega)]; omega
  rw [length_writeAt_le32 (by omega)]
  exact l9

theorem ceb_magic0 (a b c : Nat) :
    readLE32 (create_erase_block a b c) 0 = UF2_MAGIC_START0 := by
  unfold readLE32
  simp only [byteAt_create_erase_block]
  norm_num [UF2_MAGIC_START0, byteAt, le32]

theorem ceb_magic1 (a b c : Nat) :
    readLE32 (create_erase_block a b c) 4 = UF2_MAGIC_START1 := by
  unfold readLE32
  simp only [byteAt_create_erase_block]
  norm_num [UF2_MAGIC_START1, byteAt, le32]

theorem ceb_flags (a b c : Nat) :
    readLE32 (create_erase_block a b c) 8 = 0x2000 := by
  unfold readLE32
  simp only [byteAt_create_erase_block]
  norm_num [byteAt, le32]

theorem ceb_target (a b c : Nat) :
    readLE32 (create_erase_block a b c) 12 = a % 4294967296 := by
  unfold readLE32
  simp only [byteAt_create_erase_block]
  norm_num [byteAt_le32_zero, byteAt_le32_one, byteAt_le32_two,
    byteAt_le32_three]
  omega

theorem ceb_paysize (a b c : Nat) :
    readLE32 (create_erase_block a b c) 16 = BLOCK_SIZE := by
  unfold readLE32
  simp only [byteAt_create_erase_block]
  norm_num [BLOCK_SIZE, byteAt, le32]

theorem ceb_index (a b c : Nat) :
    readLE32 (create_erase_block a b c) 20 = b % 4294967296 := by
  unfold readLE32
  simp only [byteAt_create_erase_block]
  norm_num [byteAt_le32_zero, byteAt_le32_one, byteAt_le32_two,
    byteAt_le32_three]
  omega

theorem ceb_count (a b c : Nat) :
    readLE32 (create_erase_block a b c) 24 = c % 4294967296 := by
  unfold readLE32
  simp only [byteAt_create_erase_block]
  norm_num [byteAt_le32_zero, byteAt_le32_one, byteAt_le32_two,
    byteAt_le32_three]
  omega

theorem ceb_family (a b c : Nat) :
    readLE32 (create_erase_block a b c) 28 = 0xe48bff56 := by
  unfold readLE32
  simp only [byteAt_create_erase_block]
  norm_num [byteAt, le32]

theorem ceb_payload (a b c : Nat) {i : Nat} (h : i < 256) :
    byteAt (create_erase_block a b c) (32 + i) = 0xFF := by
  have g1 : ¬ (32 + i < 4) := by omega
  have g2 : ¬ (32 + i < 8) := by omega
  have g3 : ¬ (32 + i < 12) := by omega
  have g4 : ¬ (32 + i < 16) := by omega
  have g5 : ¬ (32 + i < 20) := by omega
  have g6 : ¬ (32 + i < 24) := by omega
  have g7 : ¬ (32 + i < 28) := by omega
  have g8 : ¬ (32 + i < 32) := by omega
  have g9 : 32 + i < 288 := by omega
  rw [byteAt_create_erase_block, if_neg g1, if_neg g2, if_neg g3, if_neg g4,
    if_neg g5, if_neg g6, if_neg g7, if_neg g8, if_pos g9]

theorem ceb_magic_end (a b c : Nat) :
    readLE32 (create_erase_block a b c) 508 = UF2_MAGIC_END := by
  unfold readLE32
  simp only [byteAt_create_erase_block]
  norm_num [UF2_MAGIC_END, byteAt, le32]

theorem length_flatten_512 {L : List (List Nat)}
    (h : ∀ bl ∈ L, bl.length = 512) :
    L.flatten.length = 512 * L.length := by
  induction L with
  | nil => rfl
  | cons a L ih =>
    rw [List.flatten_cons, List.length_append, h a (by simp),
      ih (fun bl hb => h bl (by simp [hb])), List.length_cons]
    ring

theorem blockAt_flatten {L : List (List Nat)}
    (h : ∀ bl ∈ L, bl.length = 512) :
    ∀ {i : Nat}, i < L.length → blockAt L.flatten i = L.getD i [] := by
  induction L with
  | nil =>
    intro i hi
    simp at hi
  | cons a L ih =>
    intro i hi
    cases i with
    | zero =>
      show ((a :: L).flatten.drop 0).take 512 = a
      rw [List.drop_zero, List.flatten_cons, List.take_left' (h a (by simp))]
    | succ i =>
      have e : (i + 1) * 512 = a.length + i * 512 := by
        rw [h a (by simp)]
        ring
      show ((a :: L).flatten.drop ((i + 1) * 512)).take 512 = L.getD i []
      rw [List.flatten_cons, e, List.drop_append]
      exact ih (fun bl hb => h bl (by simp [hb])) (by simpa using hi)

theorem length_updated_block {data : List Nat} {t i : Nat}
    (h : i < data.length / 512) : (updated_block data t i).length = 512 := by
  unfold updated_block
  rw [length_writeAt_le32 (by rw [List.length_take, List.length_drop]; omega),
    List.length_take, List.length_drop]
  omega

theorem length_erase_region_blocks (B L s t : Nat) :
    (erase_region_blocks B L s t).length = L / BLOCK_SIZE := by
  unfold erase_region_blocks
  rw [List.length_map, List.length_range]

theorem getD_erase_region_blocks {B L s t i : Nat} (h : i < L / BLOCK_SIZE) :
    (erase_region_blocks B L s t).getD i [] =
      create_erase_block (B + i * BLOCK_SIZE) (s + i) t := by
  unfold erase_region_blocks
  rw [List.getD_eq_getElem _ _
    (by rw [List.length_map, List.length_range]; exact h)]
  simp

theorem length_uf2_blocks (data : List Nat) :
    (uf2_blocks data).length = data.length / 512 + 64 := by
  unfold uf2_blocks
  rw [List.length_append, List.length_map, List.length_range,
    length_erase_region_blocks]
  norm_num [USER_SCRIPT_SIZE, BLOCK_SIZE]

theorem mem_uf2_blocks_length {data bl : List Nat}
    (h : bl ∈ uf2_blocks data) : bl.length = 512 := by
  unfold uf2_blocks at h
  rcases List.mem_append.mp h with h1 | h2
  · rcases List.mem_map.mp h1 with ⟨i, hi, rfl⟩
    exact length_updated_block (List.mem_range.mp hi)
  · unfold erase_region_blocks at h2
    rcases List.mem_map.mp h2 with ⟨i, hi, rfl⟩
    exact length_create_erase_block _ _ _

theorem length_modify (data : List Nat) :
    (modify_uf2_bytes data).length = 512 * (data.length / 512 + 64) := by
  unfold modify_uf2_bytes
  rw [length_flatten_512 (fun bl hb => mem_uf2_blocks_length hb),
    length_uf2_blocks]

theorem blockAt_modify_lt {data : List Nat} {i : Nat}
    (h : i < data.length / 512) :
    blockAt (modify_uf2_bytes data) i =
      updated_block data (data.length / 512 + 64) i := by
  unfold modify_uf2_bytes
  rw [blockAt_flatten (fun bl hb => mem_uf2_blocks_length hb)
    (by rw [length_uf2_blocks]; omega)]
  unfold uf2_blocks
  rw [List.getD_append _ _ _ _
      (by rw [List.length_map, List.length_range]; exact h),
    List.getD_eq_getElem _ _
      (by rw [List.length_map, List.length_range]; exact h)]
  norm_num [USER_SCRIPT_SIZE, BLOCK_SIZE]

theorem blockAt_modify_ge {data : List Nat} {i : Nat}
    (h1 : data.length / 512 ≤ i) (h2 : i < data.length / 512 + 64) :
    blockAt (modify_uf2_bytes data) i =
      create_erase_block
        (0x10000000 + USER_SCRIPT_OFFSET +
          (i - data.length / 512) * BLOCK_SIZE)
        i (data.length / 512 + 64) := by
  unfold modify_uf2_bytes
  rw [blockAt_flatten (fun bl hb => mem_uf2_blocks_length hb)
    (by rw [length_uf2_blocks]; omega)]
  unfold uf2_blocks
  rw [List.getD_append_right _ _ _ _
    (by rw [List.length_map, List.length_range]; exact h1)]
  rw [List.length_map, List.length_range,
    getD_erase_region_blocks (by norm_num [USER_SCRIPT_SIZE, BLOCK_SIZE]; omega)]
  have e1 : data.length / 512 + (i - data.length / 512) = i := by omega
  have e2 : USER_SCRIPT_SIZE / BLOCK_SIZE = 64 := by
    norm_num [USER_SCRIPT_SIZE, BLOCK_SIZE]
  rw [e1, e2]

theorem byteAt_updated_block_low {data : List Nat} {t i j : Nat}
    (hi : i < data.length / 512) (hj : j < 24) :
    byteAt (updated_block data t i) j = byteAt data (i * 512 + j) := by
  unfold updated_block
  rw [byteAt_writeAt_lt hj
      (by rw [List.length_take, List.length_drop]; omega),
    byteAt_take (show j < 512 by omega), byteAt_drop]

theorem byteAt_updated_block_high {data : List Nat} {t i j : Nat}
    (hi : i < data.length / 512) (hj1 : 28 ≤ j) (hj2 : j < 512) :
    byteAt (updated_block data t i) j = byteAt data (i * 512 + j) := by
  unfold updated_block
  rw [byteAt_writeAt_le32_ge (by omega)
      (by rw [List.length_take, List.length_drop]; omega),
    byteAt_take hj2, byteAt_drop]

theorem readLE32_updated_block_count {data : List Nat} {t i : Nat}
    (hi : i < data.length / 512) :
    readLE32 (updated_block data t i) 24 = t % 4294967296 := by
  unfold updated_block readLE32
  have hlen : 24 + 4 ≤ ((data.drop (i * 512)).take 512).length := by
    rw [List.length_take, List.length_drop]
    omega
  rw [byteAt_writeAt_le32_mem (by omega) (by omega) hlen,
    byteAt_writeAt_le32_mem (by omega) (by omega) hlen,
    byteAt_writeAt_le32_mem (by omega) (by omega) hlen,
    byteAt_writeAt_le32_mem (by omega) (by omega) hlen]
  norm_num [byteAt_le32_zero, byteAt_le32_one, byteAt_le32_two,
    byteAt_le32_three]
  omega

theorem readLE32_writeAt_le32 {l : List Nat} {off v : Nat}
    (h : off + 4 ≤ l.length) :
    readLE32 (writeAt l off (le32 v)) off = v % 4294967296 := by
  unfold readLE32
  rw [byteAt_writeAt_le32_mem (by omega) (by omega) h,
    byteAt_writeAt_le32_mem (by omega) (by omega) h,
    byteAt_writeAt_le32_mem (by omega) (by omega) h,
    byteAt_writeAt_le32_mem (by omega) (by omega) h]
  norm_num [byteAt_le32_zero, byteAt_le32_one, byteAt_le32_two,
    byteAt_le32_three]
  omega

theorem readLE32_writeAt_lt {l bs : List Nat} {off n : Nat}
    (h1 : n + 4 ≤ off) (h2 : off ≤ l.length) :
    readLE32 (writeAt l off bs) n = readLE32 l n := by
  unfold readLE32
  rw [byteAt_writeAt_lt (by omega) h2, byteAt_writeAt_lt (by omega) h2,
    byteAt_writeAt_lt (by omega) h2, byteAt_writeAt_lt (by omega) h2]

theorem readLE32_updated_block_low {data : List Nat} {t i off : Nat}
    (hi : i < data.length / 512) (hoff : off + 4 ≤ 24) :
    readLE32 (updated_block data t i) off = readLE32 data (i * 512 + off) := by
  unfold readLE32
  rw [byteAt_updated_block_low hi (by omega),
    byteAt_updated_block_low hi (by omega),
    byteAt_updated_block_low hi (by omega),
    byteAt_updated_block_low hi (by omega)]
  simp only [Nat.add_assoc]

theorem readLE32_updated_block_high {data : List Nat} {t i off : Nat}
    (hi : i < data.length / 512) (h1 : 28 ≤ off) (h2 : off + 4 ≤ 512) :
    readLE32 (updated_block data t i) off = readLE32 data (i * 512 + off) := by
  unfold readLE32
  rw [byteAt_updated_block_high hi (by omega) (by omega),
    byteAt_updated_block_high hi (by omega) (by omega),
    byteAt_updated_block_high hi (by omega) (by omega),
    byteAt_updated_block_high hi (by omega) (by omega)]
  simp only [Nat.add_assoc]

theorem slice_of_take {data : List Nat} {i : Nat} (h : i < data.length / 512) :
    ((data.take (512 * (data.length / 512))).drop (i * 512)).take 512 =
      (data.drop (i * 512)).take 512 := by
  rw [List.drop_take, List.take_take]
  have e : min 512 (512 * (data.length / 512) - i * 512) = 512 := by omega
  rw [e]

/-- The transform never looks at the dangling partial frame: its output on any
input equals its output on the input truncated to a whole number of frames. -/
theorem modify_uf2_bytes_take (data : List Nat) :
    modify_uf2_bytes data =
      modify_uf2_bytes (data.take (512 * (data.length / 512))) := by
  unfold modify_uf2_bytes uf2_blocks
  have hlen : (data.take (512 * (data.length / 512))).length =
      512 * (data.length / 512) := by
    rw [List.length_take]
    omega
  rw [hlen]
  have hk : 512 * (data.length / 512) / 512 = data.length / 512 := by omega
  rw [hk]
  have hmap : (List.range (data.length / 512)).map
      (updated_block data (data.length / 512 + USER_SCRIPT_SIZE / BLOCK_SIZE)) =
      (List.range (data.length / 512)).map
        (updated_block (data.take (512 * (data.length / 512)))
          (data.length / 512 + USER_SCRIPT_SIZE / BLOCK_SIZE)) := by
    apply List.map_congr_left
    intro i hi
    unfold updated_block
    rw [slice_of_take (List.mem_range.mp hi)]
  rw [hmap]

/-- C1 counterexample: a one-block input whose stored block_index is 5.  The
transform leaves the original block at position 0 with block_index 5, not 0:
block_index is never rewritten to the position. -/
theorem C1_counterexample :
    readLE32 (blockAt
        (modify_uf2_bytes (writeAt (List.replicate 512 0) 20 (le32 5))) 0) 20
      = 5 ∧ (5 : Nat) ≠ 0 := by
  constructor
  · have hlen : (writeAt (List.replicate 512 0) 20 (le32 5)).length = 512 := by
      rw [length_writeAt_le32 (by rw [List.length_replicate]; omega),
        List.length_replicate]
    have hk :
        (writeAt (List.replicate 512 0) 20 (le32 5)).length / 512 = 1 := by
      rw [hlen]
    rw [blockAt_modify_lt (by omega),
      readLE32_updated_block_low (by omega) (by omega)]
    have e : 0 * 512 + 20 = 20 := by omega
    rw [e, readLE32_writeAt_le32 (by rw [List.length_replicate]; omega)]
  · decide

/-- C1 (amended): after the transform, every block carries block_count equal
to the final total (mod 2^32) and every appended erase block at position i
carries block_index i; but an original block keeps its input block_index
bytes unchanged — the code only rewrites the block_count field. -/
theorem C1_renumbering_amended (data : List Nat) (i : Nat)
    (hi : i < data.length / 512 + 64) :
    readLE32 (blockAt (modify_uf2_bytes data) i) 24 =
      (data.length / 512 + 64) % 4294967296 ∧
    (data.length / 512 ≤ i →
      readLE32 (blockAt (modify_uf2_bytes data) i) 20 = i % 4294967296) ∧
    (i < data.length / 512 →
      readLE32 (blockAt (modify_uf2_bytes data) i) 20 =
        readLE32 data (i * 512 + 20)) := by
  refine ⟨?_, fun h => ?_, fun h => ?_⟩
  · by_cases h : i < data.length / 512
    · rw [blockAt_modify_lt h, readLE32_updated_block_count h]
    · rw [blockAt_modify_ge (by omega) hi, ceb_count]
  · rw [blockAt_modify_ge h hi, ceb_index]
  · rw [blockAt_modify_lt h, readLE32_updated_block_low h (by omega)]

/-- Witness for C1 (amended) at the empty input and position 0. -/
theorem C1_renumbering_amended_witness :
    0 < List.length ([] : List Nat) / 512 + 64 ∧
    (readLE32 (blockAt (modify_uf2_bytes []) 0) 24 =
      (List.length ([] : List Nat) / 512 + 64) % 4294967296 ∧
    (List.length ([] : List Nat) / 512 ≤ 0 →
      readLE32 (blockAt (modify_uf2_bytes []) 0) 20 = 0 % 4294967296) ∧
    (0 < List.length ([] : List Nat) / 512 →
      readLE32 (blockAt (modify_uf2_bytes []) 0) 20 =
        readLE32 [] (0 * 512 + 20))) :=
  ⟨by decide, C1_renumbering_amended [] 0 (by decide)⟩

/-- C2 counterexample: a 1-byte input (length 512*0 + 1) is not rejected; the
dangling partial frame is silently dropped and the transform produces the
same 32768-byte output as for the empty input. -/
theorem C2_counterexample :
    List.length [(0 : Nat)] % 512 ≠ 0 ∧
    modify_uf2_bytes [0] = modify_uf2_bytes [] ∧
    (modify_uf2_bytes [0]).length = 512 * 64 := by
  refine ⟨by decide, ?_, ?_⟩
  · have h := modify_uf2_bytes_take [0]
    norm_num at h
    exact h
  · rw [length_modify]
    decide

/-- C2 (amended): on input of length 512*k + r with 0 < r < 512 the transform
does not fail; it silently drops the dangling partial frame, producing the
same output as on the first 512*k bytes, of length 512*(k + 64). -/
theorem C2_truncation_amended (data : List Nat) (k r : Nat)
    (h : data.length = 512 * k + r) (h1 : 0 < r) (h2 : r < 512) :
    modify_uf2_bytes data = modify_uf2_bytes (data.take (512 * k)) ∧
    (modify_uf2_bytes data).length = 512 * (k + 64) := by
  have hk : data.length / 512 = k := by omega
  constructor
  · have ht := modify_uf2_bytes_take data
    rw [hk] at ht
    exact ht
  · rw [length_modify, hk]

/-- Witness for C2 (amended) at the 1-byte input. -/
theorem C2_truncation_amended_witness :
    List.length [(0 : Nat)] = 512 * 0 + 1 ∧ 0 < 1 ∧ 1 < 512 ∧
    (modify_uf2_bytes [0] = modify_uf2_bytes (List.take (512 * 0) [0]) ∧
      (modify_uf2_bytes [0]).length = 512 * (0 + 64)) :=
  ⟨by decide, by decide, by decide,
    C2_truncation_amended [0] 0 1 (by decide) (by decide) (by decide)⟩

/-- C3 counterexample: a 512-byte frame of zeros has a corrupted first magic
word, yet the transform performs no validation: it produces a full 65-block
output and carries the corrupted magic through unchanged. -/
theorem C3_counterexample :
    readLE32 (List.replicate 512 0) 0 ≠ 0x0A324655 ∧
    (modify_uf2_bytes (List.replicate 512 0)).length = 512 * 65 ∧
    readLE32 (blockAt (modify_uf2_bytes (List.replicate 512 0)) 0) 0 = 0 := by
  have hk : (List.replicate 512 (0 : Nat)).length / 512 = 1 := by
    rw [List.length_replicate]
  refine ⟨?_, ?_, ?_⟩
  · unfold readLE32
    rw [byteAt_replicate_zero, byteAt_replicate_zero, byteAt_replicate_zero,
      byteAt_replicate_zero]
    decide
  · rw [length_modify, hk]
  · rw [blockAt_modify_lt (by omega),
      readLE32_updated_block_low (by omega) (by omega)]
    have e : 0 * 512 + 0 = 0 := by omega
    rw [e]
    unfold readLE32
    rw [byteAt_replicate_zero, byteAt_replicate_zero, byteAt_replicate_zero,
      byteAt_replicate_zero]

/-- C3 (amended): no magic validation exists; every original frame, whatever
its magic words, is carried into the output with its magic_start0,
magic_start1 and magic_end fields byte-identical to the input. -/
theorem C3_magic_amended (data : List Nat) (i : Nat)
    (hi : i < data.length / 512) :
    readLE32 (blockAt (modify_uf2_bytes data) i) 0 =
      readLE32 data (i * 512 + 0) ∧
    readLE32 (blockAt (modify_uf2_bytes data) i) 4 =
      readLE32 data (i * 512 + 4) ∧
    readLE32 (blockAt (modify_uf2_bytes data) i) 508 =
      readLE32 data (i * 512 + 508) := by
  rw [blockAt_modify_lt hi]
  exact ⟨readLE32_updated_block_low hi (by omega),
    readLE32_updated_block_low hi (by omega),
    readLE32_updated_block_high hi (by omega) (by omega)⟩

/-- Witness for C3 (amended) at a one-frame all-zero input. -/
theorem C3_magic_amended_witness :
    0 < (List.replicate 512 (0 : Nat)).length / 512 ∧
    (readLE32 (blockAt (modify_uf2_bytes (List.replicate 512 0)) 0) 0 =
      readLE32 (List.replicate 512 0) (0 * 512 + 0) ∧
    readLE32 (blockAt (modify_uf2_bytes (List.replicate 512 0)) 0) 4 =
      readLE32 (List.replicate 512 0) (0 * 512 + 4) ∧
    readLE32 (blockAt (modify_uf2_bytes (List.replicate 512 0)) 0) 508 =
      readLE32 (List.replicate 512 0) (0 * 512 + 508)) :=
  ⟨by rw [List.length_replicate]; omega,
    C3_magic_amended (List.replicate 512 0) 0
      (by rw [List.length_replicate]; omega)⟩

/-- C4: for an erase range of length L (a positive multiple of 256) based at
B (with B + L within 32 bits), the generation loop produces exactly L/256
blocks; block i has target_address B + i*256, payload_size 256, all 256
payload bytes 0xFF, flags 0x2000 (family-ID-present bit set), and the end
magic 0x0AB16F30 in the word at byte offset 508. -/
theorem C4_synthesizer_coverage (B L s t : Nat) (hL0 : 0 < L)
    (hL : L % 256 = 0) (hB : B + L ≤ 4294967296) :
    (erase_region_blocks B L s t).length = L / 256 ∧
    ∀ i < L / 256,
      readLE32 ((erase_region_blocks B L s t).getD i []) 12 = B + i * 256 ∧
      readLE32 ((erase_region_blocks B L s t).getD i []) 16 = 256 ∧
      (∀ j < 256,
        byteAt ((erase_region_blocks B L s t).getD i []) (32 + j) = 0xFF) ∧
      readLE32 ((erase_region_blocks B L s t).getD i []) 8 = 0x2000 ∧
      readLE32 ((erase_region_blocks B L s t).getD i []) 508 = 0x0AB16F30 := by
  refine ⟨length_erase_region_blocks B L s t, ?_⟩
  intro i hi
  have hgd := getD_erase_region_blocks
    (show i < L / BLOCK_SIZE from hi) (B := B) (s := s) (t := t)
  refine ⟨?_, ?_, ?_, ?_, ?_⟩
  · rw [hgd, ceb_target]
    show (B + i * 256) % 4294967296 = B + i * 256
    exact Nat.mod_eq_of_lt (by omega)
  · rw [hgd, ceb_paysize]
    rfl
  · intro j hj
    rw [hgd]
    exact ceb_payload _ _ _ hj
  · rw [hgd, ceb_flags]
  · rw [hgd, ceb_magic_end]
    rfl

/-- Witness for C4 at a two-block range. -/
theorem C4_synthesizer_coverage_witness :
    0 < 512 ∧ 512 % 256 = 0 ∧ 0 + 512 ≤ 4294967296 ∧
    ((erase_region_blocks 0 512 0 2).length = 512 / 256 ∧
    ∀ i < 512 / 256,
      readLE32 ((erase_region_blocks 0 512 0 2).getD i []) 12 = 0 + i * 256 ∧
      readLE32 ((erase_region_blocks 0 512 0 2).getD i []) 16 = 256 ∧
      (∀ j < 256,
        byteAt ((erase_region_blocks 0 512 0 2).getD i []) (32 + j) = 0xFF) ∧
      readLE32 ((erase_region_blocks 0 512 0 2).getD i []) 8 = 0x2000 ∧
      readLE32 ((erase_region_blocks 0 512 0 2).getD i []) 508 = 0x0AB16F30) :=
  ⟨by decide, by decide, by decide,
    C4_synthesizer_coverage 0 512 0 2 (by decide) (by decide) (by decide)⟩

/-- C5: on a well-formed input of k whole frames the transform yields
512*(k+64) output bytes; each of the first k output frames is byte-identical
to its input frame outside the block_count field (bytes 24-27), block_count
becomes k+64 in every original frame, and every one of the 64 appended
blocks has an all-0xFF payload.  For k = 100 this gives 164 blocks and
block_count 164. -/
theorem C5_extension_law (data : List Nat) (k : Nat)
    (h : data.length = 512 * k) :
    (modify_uf2_bytes data).length = 512 * (k + 64) ∧
    (∀ i < k, ∀ j < 512, j < 24 ∨ 28 ≤ j →
      byteAt (blockAt (modify_uf2_bytes data) i) j =
        byteAt data (i * 512 + j)) ∧
    (∀ i < k, readLE32 (blockAt (modify_uf2_bytes data) i) 24 =
      (k + 64) % 4294967296) ∧
    (∀ i, k ≤ i → i < k + 64 → ∀ j < 256,
      byteAt (blockAt (modify_uf2_bytes data) i) (32 + j) = 0xFF) := by
  have hk : data.length / 512 = k := by omega
  refine ⟨?_, ?_, ?_, ?_⟩
  · rw [length_modify, hk]
  · intro i hi j hj hjr
    rw [blockAt_modify_lt (by omega)]
    rcases hjr with h1 | h1
    · rw [byteAt_updated_block_low (by omega) h1]
    · rw [byteAt_updated_block_high (by omega) h1 hj]
  · intro i hi
    rw [blockAt_modify_lt (by omega), readLE32_updated_block_count (by omega),
      hk]
  · intro i hi1 hi2 j hj
    rw [blockAt_modify_ge (by omega) (by omega)]
    exact ceb_payload _ _ _ hj

/-- Witness for C5 at a one-frame all-zero input. -/
theorem C5_extension_law_witness :
    (List.replicate 512 (0 : Nat)).length = 512 * 1 ∧
    ((modify_uf2_bytes (List.replicate 512 0)).length = 512 * (1 + 64) ∧
    (∀ i < 1, ∀ j < 512, j < 24 ∨ 28 ≤ j →
      byteAt (blockAt (modify_uf2_bytes (List.replicate 512 0)) i) j =
        byteAt (List.replicate 512 0) (i * 512 + j)) ∧
    (∀ i < 1, readLE32 (blockAt (modify_uf2_bytes (List.replicate 512 0)) i)
      24 = (1 + 64) % 4294967296) ∧
    (∀ i, 1 ≤ i → i < 1 + 64 → ∀ j < 256,
      byteAt (blockAt (modify_uf2_bytes (List.replicate 512 0)) i) (32 + j) =
        0xFF)) :=
  ⟨by rw [List.length_replicate],
    C5_extension_law (List.replicate 512 0) 1
      (by rw [List.length_replicate])⟩

/-- C6 counterexample: the input is a single frame (hence the last block of
the image) whose flags word is 0x2000 — the family-ID-present bit is set, so
the image does have a recognizable family-tagged block — with family_id
0x12345678.  Yet the synthesized erase block carries the hard-coded RP2040
family 0xe48bff56: the family is not taken from the last input block. -/
theorem C6_counterexample :
    readLE32 (writeAt (writeAt (List.replicate 512 0) 8 (le32 0x2000)) 28
      (le32 0x12345678)) 8 = 0x2000 ∧
    readLE32 (writeAt (writeAt (List.replicate 512 0) 8 (le32 0x2000)) 28
      (le32 0x12345678)) 28 = 0x12345678 ∧
    readLE32 (blockAt
      (modify_uf2_bytes (writeAt (writeAt (List.replicate 512 0) 8
        (le32 0x2000)) 28 (le32 0x12345678))) 1) 28 = 0xe48bff56 ∧
    (0xe48bff56 : Nat) ≠ 0x12345678 := by
  have h1 : (writeAt (List.replicate 512 0) 8 (le32 0x2000)).length = 512 := by
    rw [length_writeAt_le32 (by rw [List.length_replicate]; omega),
      List.length_replicate]
  have hlen : (writeAt (writeAt (List.replicate 512 0) 8 (le32 0x2000)) 28
      (le32 0x12345678)).length = 512 := by
    rw [length_writeAt_le32 (by omega), h1]
  have hk : (writeAt (writeAt (List.replicate 512 0) 8 (le32 0x2000)) 28
      (le32 0x12345678)).length / 512 = 1 := by
    rw [hlen]
  refine ⟨?_, ?_, ?_, by decide⟩
  · rw [readLE32_writeAt_lt (by omega) (by omega),
      readLE32_writeAt_le32 (by rw [List.length_replicate]; omega)]
  · rw [readLE32_writeAt_le32 (by omega)]
  · rw [blockAt_modify_ge (by omega) (by omega), ceb_family]

/-- C6 (amended): every synthesized erase block carries the constant family
ID 0xe48bff56, independent of the input image contents. -/
theorem C6_family_amended (data : List Nat) (i : Nat)
    (h1 : data.length / 512 ≤ i) (h2 : i < data.length / 512 + 64) :
    readLE32 (blockAt (modify_uf2_bytes data) i) 28 = 0xe48bff56 := by
  rw [blockAt_modify_ge h1 h2, ceb_family]

/-- Witness for C6 (amended) at the empty input, first erase block. -/
theorem C6_family_amended_witness :
    List.length ([] : List Nat) / 512 ≤ 0 ∧
    0 < List.length ([] : List Nat) / 512 + 64 ∧
    readLE32 (blockAt (modify_uf2_bytes []) 0) 28 = 0xe48bff56 :=
  ⟨by decide, by decide, C6_family_amended [] 0 (by decide) (by decide)⟩

/-- C7: erase-block generation and the whole transform are deterministic
pure functions: identical arguments give bit-identical 512-byte frames, and
identical input bytes give identical output bytes. -/
theorem C7_deterministic :
    (∀ a b c : Nat, create_erase_block a b c = create_erase_block a b c ∧
      (create_erase_block a b c).length = 512) ∧
    ∀ data : List Nat, modify_uf2_bytes data = modify_uf2_bytes data :=
  ⟨fun a b c => ⟨rfl, length_create_erase_block a b c⟩, fun _ => rfl⟩

/-- C8: for every input the output length is exactly
512 * (input_length / 512 + 64), hence a multiple of 512, and the output
depends only on the whole frames of the input: any dangling partial frame is
discarded. -/
theorem C8_output_length (data : List Nat) :
    (modify_uf2_bytes data).length = 512 * (data.length / 512 + 64) ∧
    (modify_uf2_bytes data).length % 512 = 0 ∧
    modify_uf2_bytes data =
      modify_uf2_bytes (data.take (512 * (data.length / 512))) := by
  refine ⟨length_modify data, ?_, modify_uf2_bytes_take data⟩
  rw [length_modify]
  omega

/-- C9: the empty input is accepted: the output is 32768 bytes, 64 erase
blocks with block_index 0..63 and block_count 64 in every block. -/
theorem C9_empty_input (i : Nat) (h : i < 64) :
    (modify_uf2_bytes []).length = 32768 ∧
    readLE32 (blockAt (modify_uf2_bytes []) i) 20 = i ∧
    readLE32 (blockAt (modify_uf2_bytes []) i) 24 = 64 := by
  have hk : List.length ([] : List Nat) / 512 = 0 := by decide
  refine ⟨?_, ?_, ?_⟩
  · rw [length_modify, hk]
  · rw [blockAt_modify_ge (by omega) (by omega), ceb_index]
    exact Nat.mod_eq_of_lt (by omega)
  · rw [blockAt_modify_ge (by omega) (by omega), ceb_count, hk]

/-- Witness for C9 at block position 5. -/
theorem C9_empty_input_witness :
    5 < 64 ∧
    ((modify_uf2_bytes []).length = 32768 ∧
    readLE32 (blockAt (modify_uf2_bytes []) 5) 20 = 5 ∧
    readLE32 (blockAt (modify_uf2_bytes []) 5) 24 = 64) :=
  ⟨by decide, C9_empty_input 5 (by decide)⟩

/-- C10: every original block carried into the output differs from its input
frame only in the four block_count bytes at offsets 24-27 (which hold the
new total); all other 508 bytes, including block_index, magics, flags,
target_address, payload_size, family_id and payload, are bit-identical. -/
theorem C10_frame_effect (data : List Nat) (i : Nat)
    (hi : i < data.length / 512) :
    (∀ j < 512, j < 24 ∨ 28 ≤ j →
      byteAt (blockAt (modify_uf2_bytes data) i) j =
        byteAt data (i * 512 + j)) ∧
    readLE32 (blockAt (modify_uf2_bytes data) i) 24 =
      (data.length / 512 + 64) % 4294967296 := by
  constructor
  · intro j hj hjr
    rw [blockAt_modify_lt hi]
    rcases hjr with h1 | h1
    · rw [byteAt_updated_block_low hi h1]
    · rw [byteAt_updated_block_high hi h1 hj]
  · rw [blockAt_modify_lt hi, readLE32_updated_block_count hi]

/-- Witness for C10 at a one-frame all-zero input. -/
theorem C10_frame_effect_witness :
    0 < (List.replicate 512 (0 : Nat)).length / 512 ∧
    ((∀ j < 512, j < 24 ∨ 28 ≤ j →
      byteAt (blockAt (modify_uf2_bytes (List.replicate 512 0)) 0) j =
        byteAt (List.replicate 512 0) (0 * 512 + j)) ∧
    readLE32 (blockAt (modify_uf2_bytes (List.replicate 512 0)) 0) 24 =
      ((List.replicate 512 (0 : Nat)).length / 512 + 64) % 4294967296) :=
  ⟨by rw [List.length_replicate]; omega,
    C10_frame_effect (List.replicate 512 0) 0
      (by rw [List.length_replicate]; omega)⟩

end AddUf2EraseBlock
